import Mathlib

/-!
Verification development for the Story-Generator repository
(`backend/core/story_generator.py`, `backend/core/prompts.py`).

The development shallowly embeds the two core routines of the repository:

* `StoryGenerator.generate_story` — the bounded document repair loop
  (`MAX_RETRIES = 3`) followed by persistence and a single commit;
* `StoryGenerator._process_story_node` — the recursive tree materializer
  with its single-attempt node repair.

External collaborators are modelled at their boundaries:

* the language model is a call-indexed stream `Nat → LLMResult`
  (each `llm.invoke` consumes the next entry; a `transportFail` entry
  models the call itself raising);
* raw model output is `RawText`, an abstract syntax for what the two
  `PydanticOutputParser` instances can see in a string: unparseable junk,
  a whole-document payload, or a single-node payload;
* the SQLAlchemy session is a `DB` value with pending (flushed) and
  committed rows; `db.flush` assigns identities into the pending lists,
  `db.commit` moves pending rows to the committed lists.

The pydantic models of `core/models.py` are not part of the repository
snapshot; the node field contract (`StoryNodeLLM.model_validate`) is
modelled from the specification (see `validateNode`).
-/

set_option linter.unusedVariables false

mutual

/-- A typed `StoryNodeLLM` value: content, the two ending flags, and the
ordered option list. -/
inductive StoryNodeLLM : Type where
  | mk (content : String) (isEnding : Bool) (isWinningEnding : Bool)
      (options : List StoryOptionLLM)

/-- A typed `StoryOptionLLM` value: the option label and the embedded
child, which at runtime is a typed node or a raw mapping. -/
inductive StoryOptionLLM : Type where
  | mk (text : String) (nextNode : NodeData)

/-- An embedded node position as the source sees it: either already a
typed `StoryNodeLLM` object or a raw `dict`. -/
inductive NodeData : Type where
  | typed (node : StoryNodeLLM)
  | dict (d : RawDict)

/-- A raw node mapping (a python `dict`): each required field may be
absent; embedded options, when present, are already-decoded option
values whose children may again be raw mappings. -/
inductive RawDict : Type where
  | mk (content : Option String) (isEnding : Option Bool)
      (isWinningEnding : Option Bool) (options : Option (List StoryOptionLLM))

end

/-- The whole-document payload (`StoryLLMResponse`): a title and a root
node which, at runtime, is either an already-typed node object or a raw
mapping (the source checks `isinstance(root_node, dict)`). -/
inductive StoryLLMResponse : Type where
  | mk (title : String) (rootNode : NodeData)

/-- Abstract raw model output, as seen through the two pydantic parsers:
`junk` parses under neither parser (carrying the parse-error text),
`doc` parses under `PydanticOutputParser(pydantic_object=StoryLLMResponse)`,
`node` decodes under `PydanticOutputParser(pydantic_object=StoryNodeLLM)`
to a raw node mapping that is then validated. -/
inductive RawText : Type where
  | junk (err : String)
  | doc (d : StoryLLMResponse)
  | node (d : RawDict)

/-- One LLM invocation result: either raw text or the call itself failing
(the `TransportError` of the specification). -/
inductive LLMResult : Type where
  | text (s : RawText)
  | transportFail

def StoryLLMResponse.title : StoryLLMResponse → String
  | .mk t _ => t

def StoryLLMResponse.rootNode : StoryLLMResponse → NodeData
  | .mk _ r => r

def StoryNodeLLM.content : StoryNodeLLM → String
  | .mk c _ _ _ => c

def StoryNodeLLM.isEnding : StoryNodeLLM → Bool
  | .mk _ e _ _ => e

def StoryNodeLLM.isWinningEnding : StoryNodeLLM → Bool
  | .mk _ _ w _ => w

def StoryNodeLLM.options : StoryNodeLLM → List StoryOptionLLM
  | .mk _ _ _ o => o

def StoryOptionLLM.text : StoryOptionLLM → String
  | .mk t _ => t

def StoryOptionLLM.nextNode : StoryOptionLLM → NodeData
  | .mk _ n => n

/-- Modelled from the spec: `StoryNodeLLM.model_validate` of the missing
`core/models.py`, i.e. the Schema Validator node contract of spec S4.1 and
the NodeSpec field rules of spec S3: `content`, `isEnding` and
`isWinningEnding` are required; `options` must be empty when `isEnding`
is true and must contain 2-3 entries otherwise.  The soft authoring
length bounds are prompt-enforced only and are not checked here. -/
def validateNode : RawDict → Except String StoryNodeLLM
  | .mk none _ _ _ => Except.error "field required: content"
  | .mk _ none _ _ => Except.error "field required: isEnding"
  | .mk _ _ none _ => Except.error "field required: isWinningEnding"
  | .mk (some c) (some e) (some w) o =>
    let os := o.getD []
    if e then
      if os.isEmpty then Except.ok (StoryNodeLLM.mk c e w [])
      else Except.error "options must be empty on an ending node"
    else
      if 2 ≤ os.length ∧ os.length ≤ 3 then Except.ok (StoryNodeLLM.mk c e w os)
      else Except.error "a non-ending node must have 2-3 options"

/-- Shallow rendering of a raw node mapping, standing in for the python
string interpolation of the dict into the node repair prompt. -/
def RawDict.render : RawDict → String
  | .mk c e w o =>
    "RawDict(content=" ++ (c.getD "<missing>") ++
    ", isEnding=" ++ (match e with | some true => "True" | some false => "False" | none => "<missing>") ++
    ", isWinningEnding=" ++ (match w with | some true => "True" | some false => "False" | none => "<missing>") ++
    ", optionCount=" ++ toString (o.getD []).length ++ ")"

/-- Rendering of raw model output back into prompt text (the source
quotes `response_text` inside the root repair prompt). -/
def RawText.render : RawText → String
  | .junk s => s
  | .doc d => "<document JSON: " ++ d.title ++ ">"
  | .node d => "<node JSON: " ++ d.render ++ ">"

/-- The whole-document parse, `parser.parse(response_text)` with
`PydanticOutputParser(pydantic_object=StoryLLMResponse)`. -/
def docParse : RawText → Except String StoryLLMResponse
  | .junk e => Except.error e
  | .doc d => Except.ok d
  | .node _ => Except.error "Got invalid JSON object: expected StoryLLMResponse"

/-- The single-node parse, `node_parser.parse(repair_text)` with
`PydanticOutputParser(pydantic_object=StoryNodeLLM)`: decode the node
mapping, then validate it against the node model. -/
def nodeParse : RawText → Except String StoryNodeLLM
  | .junk e => Except.error e
  | .doc _ => Except.error "Got invalid JSON object: expected StoryNodeLLM"
  | .node d => validateNode d

/-- Stored option edge: one `{"text": ..., "node_id": ...}` entry of a
node row's `options` JSON column. -/
structure OptionRow where
  text : String
  node_id : Nat
deriving DecidableEq, Repr

/-- Stored story node row (`models.story.StoryNode`). -/
structure NodeRow where
  id : Nat
  story_id : Nat
  content : String
  is_root : Bool
  is_ending : Bool
  is_winning_ending : Bool
  options : List OptionRow
deriving DecidableEq, Repr

/-- Stored story row (`models.story.Story`). -/
structure StoryRow where
  id : Nat
  title : String
  session_id : String
deriving DecidableEq, Repr

/-- The storage session: rows that have been flushed inside the open
transaction (`pending*`), rows visible after a commit (`committed*`),
the identity counter, and a counter of commits performed. -/
structure DB where
  nextId : Nat
  pendingStories : List StoryRow
  pendingNodes : List NodeRow
  committedStories : List StoryRow
  committedNodes : List NodeRow
  commits : Nat
deriving DecidableEq, Repr

def DB.empty : DB := ⟨0, [], [], [], [], 0⟩

/-- Modelling `db.add(story); db.flush()`: the story row receives its
identity from the session counter. -/
def DB.addStory (db : DB) (title sessionId : String) : Nat × DB :=
  (db.nextId,
   { db with
       nextId := db.nextId + 1
       pendingStories := db.pendingStories ++ [⟨db.nextId, title, sessionId⟩] })

/-- Modelling `db.add(node); db.flush()`: the node row receives its
identity from the session counter; its options column starts empty. -/
def DB.addNode (db : DB) (storyId : Nat) (content : String)
    (isRoot isEnding isWinning : Bool) : Nat × DB :=
  (db.nextId,
   { db with
       nextId := db.nextId + 1
       pendingNodes := db.pendingNodes ++
         [⟨db.nextId, storyId, content, isRoot, isEnding, isWinning, []⟩] })

/-- Modelling `node.options = options_payload; db.flush()`: the pending
row with the given identity gets its options column replaced. -/
def DB.setNodeOptions (db : DB) (nid : Nat) (opts : List OptionRow) : DB :=
  { db with
      pendingNodes := db.pendingNodes.map
        (fun r => if r.id = nid then { r with options := opts } else r) }

/-- Modelling `db.commit()`: all pending rows become committed. -/
def DB.commit (db : DB) : DB :=
  ⟨db.nextId, [], [],
   db.committedStories ++ db.pendingStories,
   db.committedNodes ++ db.pendingNodes,
   db.commits + 1⟩

/-- One system/human message pair passed to `llm.invoke`. -/
structure Messages where
  system : String
  human : String
deriving DecidableEq, Repr

/-- The base story prompt (`core/prompts.py`, `STORY_PROMPT`).  The
narrative wording is abbreviated — prompt content is out of scope per
spec S1 — but the constant is kept distinct and is the shared prefix of
every prompt the generator builds, as in the source. -/
def STORY_PROMPT : String :=
  "You are a creative story writer that creates engaging choose-your-own-adventure stories. Generate a complete branching story with multiple paths and endings in the JSON format specified. Each node should have 2-3 options except for ending nodes. Ensure nextNode objects are complete and embedded, with no nulls."

/-- Stand-in for `parser.get_format_instructions()` of the document
parser (output of an external library call, modelled as opaque text). -/
def formatInstructions : String :=
  "<format instructions: StoryLLMResponse JSON schema>"

/-- Stand-in for `node_parser.get_format_instructions()`. -/
def nodeFormatInstructions : String :=
  "<format instructions: StoryNodeLLM JSON schema>"

/-- The full system prompt of attempt 0 (source line 43). -/
def fullSystemPrompt : String :=
  STORY_PROMPT ++ "\n\nOutput your story in this exact JSON format:\n" ++ formatInstructions

/-- The initial instructions: the message pair sent at the top of every
iteration of the generation loop (source lines 48-51). -/
def initialMessages (theme : String) : Messages :=
  ⟨fullSystemPrompt, "Create the story with this theme: " ++ theme⟩

/-- The document-level repair message pair (source lines 110-133),
carrying the error text of the failed parse. -/
def docRepairMessages (err : String) : Messages :=
  ⟨STORY_PROMPT ++
     "\n\nThe previous JSON was INVALID.\nErrors:\n" ++ err ++
     "\n\nFix ALL errors.\nRules:\n- nextNode MUST NEVER be null\n- Every option MUST contain a complete nextNode\n- Return the FULL corrected JSON ONLY.\n\nOutput your story in this exact JSON format:\n" ++
     formatInstructions,
   "Fix the JSON and return it."⟩

/-- The root-specific repair message pair (source lines 66-87), built
when the parsed document's root mapping fails node validation; it quotes
both the validation error and the previous raw output. -/
def rootRepairMessages (err : String) (prevText : String) : Messages :=
  ⟨STORY_PROMPT ++
     "\n\nThe previous JSON was INVALID.\nValidation errors:\n" ++ err ++
     "\n\nHere is the JSON you returned:\n" ++ prevText ++
     "\n\nFix ALL errors and ensure every node includes the required content, isEnding, isWinningEnding, and options fields.\n\nOutput your story in this exact JSON format:\n" ++
     formatInstructions,
   "Fix the JSON and return it."⟩

/-- The single-node repair message pair of the materializer (source
lines 205-223), quoting the invalid raw node mapping. -/
def nodeRepairMessages (d : RawDict) : Messages :=
  ⟨STORY_PROMPT ++
     "\n\nThe following node JSON is INVALID or missing required fields:\n" ++ d.render ++
     "\n\nFix ALL errors and return ONLY the corrected node JSON in this exact format:\n" ++
     nodeFormatInstructions,
   "Fix the node JSON and return it."⟩

/-- String form of the transport exception, as `str(e)` would render it
when the outer handler catches a failed `llm.invoke`. -/
def transportErrorText : String := "TransportError: the model endpoint call failed"

/-- The failure outcomes of the generator, mirroring the exceptions that
can escape `generate_story`. -/
inductive GenError where
  | transport
  | exhausted (lastError : Option String)
  | nodeRepairFailed (err : String)
  | rootConvert (err : String)
  | fuelOut
deriving DecidableEq, Repr

/-- The root-node secondary check of the loop (source lines 58-61):
an already-typed root is accepted without validation; a raw mapping is
validated against the node model. -/
def rootCheck (doc : StoryLLMResponse) : Except String Unit :=
  match doc.rootNode with
  | NodeData.typed _ => Except.ok ()
  | NodeData.dict d => (validateNode d).map (fun _ => ())

/-- The conversion at source lines 156-158, just before materialization:
a raw-mapping root is re-validated into a typed node. -/
def rootToTyped : NodeData → Except String StoryNodeLLM
  | NodeData.typed n => Except.ok n
  | NodeData.dict d => validateNode d

/-- Outcome of the generation loop: the accepted document or the escaped
exception, the index of the next unconsumed LLM call, and the ordered
log of message pairs actually sent to the model. -/
structure LoopOut where
  res : Except GenError StoryLLMResponse
  next : Nat
  log : List Messages

/-- The `for attempt in range(MAX_RETRIES)` loop of `generate_story`
(source lines 45-143), one constructor case per remaining attempt.

Control-flow notes, read off the source:
* every iteration rebuilds `messages` from the initial instructions
  (lines 48-51) and calls the model; that call sits outside the `try`,
  so a transport failure escapes the loop;
* a failed whole-document parse builds the document repair prompt and
  invokes the model with it (lines 130-137), but the loop then starts
  its next iteration, which overwrites `messages` and `response_text`;
* a parsed document whose raw root mapping fails validation triggers one
  inline retry with the root repair prompt (lines 66-101): the retry
  response is parsed and root-checked; success breaks out, failure falls
  through to the next iteration;
* a transport failure during the inline root-repair call is caught by
  the outer handler (line 106) and treated as a document-level error;
* exhausting the range raises the final exception carrying `last_error`
  (lines 139-143). -/
def attemptLoop (llm : Nat → LLMResult) (theme : String)
    (lastError : Option String) (k : Nat) : Nat → LoopOut
  | 0 => ⟨Except.error (GenError.exhausted lastError), k, []⟩
  | n + 1 =>
    let msgs := initialMessages theme
    match llm k with
    | LLMResult.transportFail => ⟨Except.error GenError.transport, k + 1, [msgs]⟩
    | LLMResult.text r =>
      match docParse r with
      | Except.error e =>
        let dmsgs := docRepairMessages e
        match llm (k + 1) with
        | LLMResult.transportFail => ⟨Except.error GenError.transport, k + 2, [msgs, dmsgs]⟩
        | LLMResult.text _ =>
          let rest := attemptLoop llm theme (some e) (k + 2) n
          ⟨rest.res, rest.next, msgs :: dmsgs :: rest.log⟩
      | Except.ok doc =>
        match rootCheck doc with
        | Except.ok _ => ⟨Except.ok doc, k + 1, [msgs]⟩
        | Except.error ve =>
          let rmsgs := rootRepairMessages ve r.render
          match llm (k + 1) with
          | LLMResult.transportFail =>
            let dmsgs := docRepairMessages transportErrorText
            match llm (k + 2) with
            | LLMResult.transportFail =>
              ⟨Except.error GenError.transport, k + 3, [msgs, rmsgs, dmsgs]⟩
            | LLMResult.text _ =>
              let rest := attemptLoop llm theme (some transportErrorText) (k + 3) n
              ⟨rest.res, rest.next, msgs :: rmsgs :: dmsgs :: rest.log⟩
          | LLMResult.text r2 =>
            match docParse r2 with
            | Except.error e2 =>
              let rest := attemptLoop llm theme (some e2) (k + 2) n
              ⟨rest.res, rest.next, msgs :: rmsgs :: rest.log⟩
            | Except.ok doc2 =>
              match rootCheck doc2 with
              | Except.ok _ => ⟨Except.ok doc2, k + 2, [msgs, rmsgs]⟩
              | Except.error e2 =>
                let rest := attemptLoop llm theme (some e2) (k + 2) n
                ⟨rest.res, rest.next, msgs :: rmsgs :: rest.log⟩

/-- `MAX_RETRIES` of `StoryGenerator`. -/
def MAX_RETRIES : Nat := 3

/-- Outcome of one materializer step: result, session state, next
unconsumed LLM call index, and the node-repair message log. -/
structure MStep (α : Type) where
  res : Except GenError α
  db : DB
  next : Nat
  log : List Messages

/-- Resolution of one embedded child (source lines 195-233): a typed
child passes through untouched; a raw mapping is validated, and on
validation failure exactly one repair call is issued, whose response is
parsed under the node parser; a second failure is fatal. -/
def resolveChild (llm : Nat → LLMResult) (k : Nat) :
    NodeData → Except GenError StoryNodeLLM × Nat × List Messages
  | NodeData.typed n => (Except.ok n, k, [])
  | NodeData.dict d =>
    match validateNode d with
    | Except.ok n => (Except.ok n, k, [])
    | Except.error _ =>
      match llm k with
      | LLMResult.transportFail => (Except.error GenError.transport, k + 1, [nodeRepairMessages d])
      | LLMResult.text rt =>
        match nodeParse rt with
        | Except.ok n => (Except.ok n, k + 1, [nodeRepairMessages d])
        | Except.error e2 =>
          (Except.error (GenError.nodeRepairFailed e2), k + 1, [nodeRepairMessages d])

mutual

/-- `StoryGenerator._process_story_node` (source lines 170-250): insert
the node row first (empty options placeholder), then, unless the node is
an ending, resolve and recurse into each option's child in order and
finally write the ordered `{text, node_id}` payload back onto the row.
The `fuel` argument bounds the recursion depth so the embedding is
total; the source recursion is bounded only by the tree it is given. -/
def processStoryNode (fuel : Nat) (llm : Nat → LLMResult) (k : Nat) (db : DB)
    (storyId : Nat) (nd : StoryNodeLLM) (isRoot : Bool) : MStep NodeRow :=
  match fuel with
  | 0 => ⟨Except.error GenError.fuelOut, db, k, []⟩
  | f + 1 =>
    let nid := (db.addNode storyId nd.content isRoot nd.isEnding nd.isWinningEnding).1
    let db1 := (db.addNode storyId nd.content isRoot nd.isEnding nd.isWinningEnding).2
    if nd.isEnding then
      ⟨Except.ok ⟨nid, storyId, nd.content, isRoot, nd.isEnding, nd.isWinningEnding, []⟩,
       db1, k, []⟩
    else
      let po := processOptions f llm k db1 storyId nd.options
      match po.res with
      | Except.error e => ⟨Except.error e, po.db, po.next, po.log⟩
      | Except.ok payload =>
        ⟨Except.ok ⟨nid, storyId, nd.content, isRoot, nd.isEnding, nd.isWinningEnding, payload⟩,
         po.db.setNodeOptions nid payload, po.next, po.log⟩

/-- The `for option in node_data.options` walk of the materializer
(source lines 194-245), building the options payload left to right. -/
def processOptions (fuel : Nat) (llm : Nat → LLMResult) (k : Nat) (db : DB)
    (storyId : Nat) (opts : List StoryOptionLLM) : MStep (List OptionRow) :=
  match fuel with
  | 0 => ⟨Except.error GenError.fuelOut, db, k, []⟩
  | f + 1 =>
    match opts with
    | [] => ⟨Except.ok [], db, k, []⟩
    | opt :: rest =>
      match resolveChild llm k opt.nextNode with
      | (Except.error e, k1, lg) => ⟨Except.error e, db, k1, lg⟩
      | (Except.ok child, k1, lg) =>
        let c := processStoryNode f llm k1 db storyId child false
        match c.res with
        | Except.error e => ⟨Except.error e, c.db, c.next, lg ++ c.log⟩
        | Except.ok childRow =>
          let po := processOptions f llm c.next c.db storyId rest
          match po.res with
          | Except.error e => ⟨Except.error e, po.db, po.next, lg ++ c.log ++ po.log⟩
          | Except.ok payload =>
            ⟨Except.ok (⟨opt.text, childRow.id⟩ :: payload),
             po.db, po.next, lg ++ c.log ++ po.log⟩

end

/-- Depth budget handed to the materializer by the embedding; the python
recursion carries no such budget, so it is chosen large enough for any
document the claims exercise. -/
def materializeFuel : Nat := 1000

/-- Final outcome of `generate_story`: the story row or the escaped
exception, the session state, and the full ordered message log. -/
structure GenOut where
  res : Except GenError StoryRow
  db : DB
  log : List Messages

/-- `StoryGenerator.generate_story` (source lines 31-168): run the
attempt loop; on acceptance insert the story row, convert the root to a
typed node, materialize the tree, and commit once at the very end. -/
def generateStory (llm : Nat → LLMResult) (db : DB)
    (sessionId theme : String) : GenOut :=
  let lo := attemptLoop llm theme none 0 MAX_RETRIES
  match lo.res with
  | Except.error e => ⟨Except.error e, db, lo.log⟩
  | Except.ok doc =>
    let sid := (db.addStory doc.title sessionId).1
    let db1 := (db.addStory doc.title sessionId).2
    match rootToTyped doc.rootNode with
    | Except.error e => ⟨Except.error (GenError.rootConvert e), db1, lo.log⟩
    | Except.ok rootNode =>
      let m := processStoryNode materializeFuel llm lo.next db1 sid rootNode true
      match m.res with
      | Except.error e => ⟨Except.error e, m.db, lo.log ++ m.log⟩
      | Except.ok _ =>
        ⟨Except.ok ⟨sid, doc.title, sessionId⟩, m.db.commit, lo.log ++ m.log⟩

/-! ### Properties of session states used by the invariant lemmas -/

/-- The materializer never touches committed rows or the commit counter;
this relation captures exactly the fields it must preserve. -/
def framePreserved (a b : DB) : Prop :=
  b.committedStories = a.committedStories ∧
  b.committedNodes = a.committedNodes ∧
  b.commits = a.commits

/-- Rows appended by one materializer call: each belongs to the story
being materialized, carries an identity from the fresh range, and every
option edge it stores points at another appended row of the same story. -/
def newRowsOk (sid lo hi : Nat) (new : List NodeRow) : Prop :=
  ∀ r ∈ new, r.story_id = sid ∧ lo ≤ r.id ∧ r.id < hi ∧
    ∀ o ∈ r.options, ∃ r2, r2 ∈ new ∧ r2.id = o.node_id ∧ r2.story_id = sid

/-! ### Concrete fixtures used by witnesses and counterexamples -/

/-- A model that always answers with unparseable text. -/
def llmJunk : Nat → LLMResult := fun _ => LLMResult.text (RawText.junk "bad")

/-- A model whose calls always fail at the transport layer. -/
def llmTrans : Nat → LLMResult := fun _ => LLMResult.transportFail

/-- A model that always answers with text that the node parser rejects. -/
def llmStillBad : Nat → LLMResult := fun _ => LLMResult.text (RawText.junk "still invalid")

def endWin : StoryNodeLLM := StoryNodeLLM.mk "You win" true true []

def endLose : StoryNodeLLM := StoryNodeLLM.mk "You lose" true false []

/-- A well-shaped two-level root: non-ending, two typed ending children. -/
def rootGood : StoryNodeLLM :=
  StoryNodeLLM.mk "Start" false false
    [StoryOptionLLM.mk "Go left" (NodeData.typed endWin),
     StoryOptionLLM.mk "Go right" (NodeData.typed endLose)]

def docGood : StoryLLMResponse := StoryLLMResponse.mk "T" (NodeData.typed rootGood)

/-- A model that always returns the well-shaped document. -/
def llmGood : Nat → LLMResult := fun _ => LLMResult.text (RawText.doc docGood)

/-- A raw child mapping violating the tree-shape rule: an ending node
carrying a non-empty options list. -/
def endBadDict : RawDict :=
  RawDict.mk (some "Trap") (some true) (some false)
    (some [StoryOptionLLM.mk "x" (NodeData.typed endWin)])

/-- A well-formed raw root mapping whose first child is the violating
raw mapping `endBadDict`. -/
def rootDictBad : RawDict :=
  RawDict.mk (some "Start") (some false) (some false)
    (some [StoryOptionLLM.mk "left" (NodeData.dict endBadDict),
           StoryOptionLLM.mk "right" (NodeData.typed endWin)])

def docShapeViolating : StoryLLMResponse :=
  StoryLLMResponse.mk "T9" (NodeData.dict rootDictBad)

/-- A model returning the shape-violating document first and junk (so
the node repair fails) afterwards. -/
def llmShapeViolating : Nat → LLMResult := fun j =>
  if j = 0 then LLMResult.text (RawText.doc docShapeViolating)
  else LLMResult.text (RawText.junk "still invalid")

/-- The typed parent node whose first option embeds the violating raw
child, as the materializer receives it. -/
def nodeWithBadChild : StoryNodeLLM :=
  StoryNodeLLM.mk "Start" false false
    [StoryOptionLLM.mk "left" (NodeData.dict endBadDict),
     StoryOptionLLM.mk "right" (NodeData.typed endWin)]

/-- A raw root mapping missing its `isEnding` field. -/
def rootDictNoEnding : RawDict :=
  RawDict.mk (some "Start") none (some false)
    (some [StoryOptionLLM.mk "left" (NodeData.typed endWin),
           StoryOptionLLM.mk "right" (NodeData.typed endLose)])

def docBadRoot : StoryLLMResponse :=
  StoryLLMResponse.mk "TB" (NodeData.dict rootDictNoEnding)

/-- A model returning a document with an invalid raw root first, and the
well-shaped document on the inline root-repair retry. -/
def llmRootRepair : Nat → LLMResult := fun j =>
  if j = 0 then LLMResult.text (RawText.doc docBadRoot)
  else LLMResult.text (RawText.doc docGood)

/-! ## Helper lemmas -/

theorem framePreserved_refl (a : DB) : framePreserved a a := ⟨rfl, rfl, rfl⟩

theorem framePreserved_trans {a b c : DB}
    (h1 : framePreserved a b) (h2 : framePreserved b c) : framePreserved a c :=
  ⟨h2.1.trans h1.1, h2.2.1.trans h1.2.1, h2.2.2.trans h1.2.2⟩

theorem framePreserved_addStory (db : DB) (t s : String) :
    framePreserved db (db.addStory t s).2 := ⟨rfl, rfl, rfl⟩

theorem framePreserved_addNode (db : DB) (sid : Nat) (c : String) (r e w : Bool) :
    framePreserved db (db.addNode sid c r e w).2 := ⟨rfl, rfl, rfl⟩

theorem framePreserved_setNodeOptions (db : DB) (nid : Nat) (opts : List OptionRow) :
    framePreserved db (db.setNodeOptions nid opts) := ⟨rfl, rfl, rfl⟩

/-- The materializer leaves committed rows and the commit counter
untouched: it only flushes into the pending lists. -/
theorem processFrame (fuel : Nat) :
    (∀ llm k db storyId nd isRoot,
       framePreserved db (processStoryNode fuel llm k db storyId nd isRoot).db) ∧
    (∀ llm k db storyId opts,
       framePreserved db (processOptions fuel llm k db storyId opts).db) := by
  induction fuel with
  | zero =>
    exact ⟨fun _ _ db _ _ _ => framePreserved_refl db,
           fun _ _ db _ _ => framePreserved_refl db⟩
  | succ f ih =>
    constructor
    · intro llm k db storyId nd isRoot
      simp only [processStoryNode]
      by_cases he : nd.isEnding
      · simp only [he, if_true]
        exact framePreserved_addNode ..
      · simp only [Bool.not_eq_true] at he
        simp only [he, Bool.false_eq_true, if_false]
        cases hpo : (processOptions f llm k
            (db.addNode storyId nd.content isRoot false nd.isWinningEnding).2
            storyId nd.options).res
        · simp only [hpo]
          exact framePreserved_trans (framePreserved_addNode ..) (ih.2 ..)
        · simp only [hpo]
          exact framePreserved_trans (framePreserved_addNode ..)
            (framePreserved_trans (ih.2 ..) (framePreserved_setNodeOptions ..))
    · intro llm k db storyId opts
      simp only [processOptions]
      cases opts with
      | nil => exact framePreserved_refl db
      | cons opt rest =>
        rcases hr : resolveChild llm k opt.nextNode with ⟨r1, k1, lg⟩
        cases r1 with
        | error e => simp only [hr]; exact framePreserved_refl db
        | ok child =>
          simp only [hr]
          cases hc : (processStoryNode f llm k1 db storyId child false).res
          · simp only [hc]
            exact ih.1 ..
          · simp only [hc]
            cases hpo : (processOptions f llm
                (processStoryNode f llm k1 db storyId child false).next
                (processStoryNode f llm k1 db storyId child false).db storyId rest).res
            · simp only [hpo]
              exact framePreserved_trans (ih.1 ..) (ih.2 ..)
            · simp only [hpo]
              exact framePreserved_trans (ih.1 ..) (ih.2 ..)

theorem attemptLoop_zero (llm : Nat → LLMResult) (theme : String)
    (le : Option String) (k : Nat) :
    attemptLoop llm theme le k 0 = ⟨Except.error (GenError.exhausted le), k, []⟩ := rfl

theorem attemptLoop_parseFail {llm : Nat → LLMResult} {k : Nat} {r r2 : RawText}
    {e : String} (theme : String) (le : Option String) (n : Nat)
    (h1 : llm k = LLMResult.text r) (h2 : docParse r = Except.error e)
    (h3 : llm (k + 1) = LLMResult.text r2) :
    attemptLoop llm theme le k (n + 1) =
      ⟨(attemptLoop llm theme (some e) (k + 2) n).res,
       (attemptLoop llm theme (some e) (k + 2) n).next,
       initialMessages theme :: docRepairMessages e ::
         (attemptLoop llm theme (some e) (k + 2) n).log⟩ := by
  simp only [attemptLoop, h1, h2, h3]

theorem attemptLoop_accept {llm : Nat → LLMResult} {k : Nat} {r : RawText}
    {doc : StoryLLMResponse} {u : Unit} (theme : String) (le : Option String) (n : Nat)
    (h1 : llm k = LLMResult.text r) (h2 : docParse r = Except.ok doc)
    (h3 : rootCheck doc = Except.ok u) :
    attemptLoop llm theme le k (n + 1) =
      ⟨Except.ok doc, k + 1, [initialMessages theme]⟩ := by
  simp only [attemptLoop, h1, h2, h3]

theorem attemptLoop_rootRepairAccept {llm : Nat → LLMResult} {k : Nat}
    {r r2 : RawText} {doc doc2 : StoryLLMResponse} {ve : String} {u : Unit}
    (theme : String) (le : Option String) (n : Nat)
    (h1 : llm k = LLMResult.text r) (h2 : docParse r = Except.ok doc)
    (h3 : rootCheck doc = Except.error ve)
    (h4 : llm (k + 1) = LLMResult.text r2) (h5 : docParse r2 = Except.ok doc2)
    (h6 : rootCheck doc2 = Except.ok u) :
    attemptLoop llm theme le k (n + 1) =
      ⟨Except.ok doc2, k + 2,
       [initialMessages theme, rootRepairMessages ve r.render]⟩ := by
  simp only [attemptLoop, h1, h2, h3, h4, h5, h6]

theorem attemptLoop_rootRepairParseFail {llm : Nat → LLMResult} {k : Nat}
    {r r2 : RawText} {doc : StoryLLMResponse} {ve e2 : String}
    (theme : String) (le : Option String) (n : Nat)
    (h1 : llm k = LLMResult.text r) (h2 : docParse r = Except.ok doc)
    (h3 : rootCheck doc = Except.error ve)
    (h4 : llm (k + 1) = LLMResult.text r2) (h5 : docParse r2 = Except.error e2) :
    attemptLoop llm theme le k (n + 1) =
      ⟨(attemptLoop llm theme (some e2) (k + 2) n).res,
       (attemptLoop llm theme (some e2) (k + 2) n).next,
       initialMessages theme :: rootRepairMessages ve r.render ::
         (attemptLoop llm theme (some e2) (k + 2) n).log⟩ := by
  simp only [attemptLoop, h1, h2, h3, h4, h5]

theorem attemptLoop_transportFail {llm : Nat → LLMResult} {k : Nat}
    (theme : String) (le : Option String) (n : Nat)
    (h : llm k = LLMResult.transportFail) :
    attemptLoop llm theme le k (n + 1) =
      ⟨Except.error GenError.transport, k + 1, [initialMessages theme]⟩ := by
  simp only [attemptLoop, h]

theorem attemptLoop_rootRepairCheckFail {llm : Nat → LLMResult} {k : Nat}
    {r r2 : RawText} {doc doc2 : StoryLLMResponse} {ve e2 : String}
    (theme : String) (le : Option String) (n : Nat)
    (h1 : llm k = LLMResult.text r) (h2 : docParse r = Except.ok doc)
    (h3 : rootCheck doc = Except.error ve)
    (h4 : llm (k + 1) = LLMResult.text r2) (h5 : docParse r2 = Except.ok doc2)
    (h6 : rootCheck doc2 = Except.error e2) :
    attemptLoop llm theme le k (n + 1) =
      ⟨(attemptLoop llm theme (some e2) (k + 2) n).res,
       (attemptLoop llm theme (some e2) (k + 2) n).next,
       initialMessages theme :: rootRepairMessages ve r.render ::
         (attemptLoop llm theme (some e2) (k + 2) n).log⟩ := by
  simp only [attemptLoop, h1, h2, h3, h4, h5, h6]

/-! ## Claim C6 -/

/-- Claim C6 as stated is false: the main generation call of the loop
sits outside the `try` block (source line 52), so a transport failure is
not counted against the retry budget and the loop does not proceed to
the next attempt.  At a model whose calls always fail at the transport
layer, `generate_story` escapes with the transport error after a single
model call (one message pair sent), instead of terminating with the
budget-exhaustion error after three attempts. -/
theorem c6_transport_counterexample :
    (generateStory llmTrans DB.empty "s1" "fantasy").res =
      Except.error GenError.transport ∧
    (generateStory llmTrans DB.empty "s1" "fantasy").log =
      [initialMessages "fantasy"] :=
  ⟨rfl, rfl⟩

/-- Claim C6 amended: a transport failure of the main generation call
aborts the loop immediately — the error propagates uncaught after
exactly one further consumed call index, no repair prompt is built for
it, and no later attempt runs. -/
theorem c6_transport_aborts_loop (llm : Nat → LLMResult) (theme : String)
    (le : Option String) (k n : Nat) (h : llm k = LLMResult.transportFail) :
    attemptLoop llm theme le k (n + 1) =
      ⟨Except.error GenError.transport, k + 1, [initialMessages theme]⟩ := by
  simp only [attemptLoop, h]

theorem c6_transport_aborts_loop_witness :
    attemptLoop llmTrans "fantasy" none 0 3 =
      ⟨Except.error GenError.transport, 1, [initialMessages "fantasy"]⟩ :=
  c6_transport_aborts_loop llmTrans "fantasy" none 0 2 rfl

/-! ## Claim C10 -/

/-- Claim C10: node-level validation and repair apply only to embedded
children that arrive as raw mappings.  A typed child is passed through
`resolveChild` untouched — no validation, no model call, no repair
message — whatever its shape; a typed root passes the secondary root
check unconditionally; and the pre-materialization conversion accepts a
typed root directly. -/
theorem c10_typed_bypasses_validation :
    (∀ (llm : Nat → LLMResult) (k : Nat) (n : StoryNodeLLM),
       resolveChild llm k (NodeData.typed n) = (Except.ok n, k, [])) ∧
    (∀ (doc : StoryLLMResponse) (n : StoryNodeLLM),
       doc.rootNode = NodeData.typed n → rootCheck doc = Except.ok ()) ∧
    (∀ (n : StoryNodeLLM), rootToTyped (NodeData.typed n) = Except.ok n) := by
  refine ⟨fun _ _ _ => rfl, fun doc n h => ?_, fun _ => rfl⟩
  simp [rootCheck, h]

theorem c10_typed_bypasses_validation_witness :
    rootCheck docGood = Except.ok () :=
  c10_typed_bypasses_validation.2.1 docGood rootGood rfl

/-! ## Claim C2 -/

/-- Claim C2 fails on the code: the loop rebuilds `messages` from the
initial instructions at the top of every iteration (source lines 48-51),
so after the document repair prompt is issued during attempt 0 (log
entry 1), attempt 1's generation call is made with the original initial
instructions again (log entry 2), not with the most recent repair
prompt; the response to the repair invocation of lines 136-137 is
overwritten before it is ever parsed.  The third conjunct certifies the
two message pairs really differ (already in their human turns). -/
theorem c2_original_prompt_reused :
    (attemptLoop llmJunk "fantasy" none 0 MAX_RETRIES).log.get? 1 =
      some (docRepairMessages "bad") ∧
    (attemptLoop llmJunk "fantasy" none 0 MAX_RETRIES).log.get? 2 =
      some (initialMessages "fantasy") ∧
    (decide ((initialMessages "fantasy").human = (docRepairMessages "bad").human)) =
      false := by
  refine ⟨rfl, rfl, by decide⟩

/-! ## Claim C5 -/

/-- Claim C5: when an embedded raw-mapping child fails node validation,
exactly one repair attempt is made — one model call with the node repair
prompt, whose response is re-validated through the node parser.  If that
single attempt succeeds, resolution continues with the repaired node; if
it fails, the fatal node-repair error aborts the enclosing
`_process_story_node` call (the parent's result and log show the single
repair message and the escalated error) with no further retry. -/
theorem c5_single_node_repair (fuel : Nat) (llm : Nat → LLMResult) (k : Nat)
    (db : DB) (storyId : Nat) (t ve : String) (d : RawDict)
    (rest : List StoryOptionLLM) (nd : StoryNodeLLM) (isRoot : Bool)
    (hv : validateNode d = Except.error ve)
    (hne : nd.isEnding = false)
    (hopts : nd.options = StoryOptionLLM.mk t (NodeData.dict d) :: rest) :
    (∀ rt n, llm k = LLMResult.text rt → nodeParse rt = Except.ok n →
       resolveChild llm k (NodeData.dict d) =
         (Except.ok n, k + 1, [nodeRepairMessages d])) ∧
    (∀ rt e2, llm k = LLMResult.text rt → nodeParse rt = Except.error e2 →
       resolveChild llm k (NodeData.dict d) =
         (Except.error (GenError.nodeRepairFailed e2), k + 1, [nodeRepairMessages d]) ∧
       processOptions (fuel + 1) llm k db storyId
           (StoryOptionLLM.mk t (NodeData.dict d) :: rest) =
         ⟨Except.error (GenError.nodeRepairFailed e2), db, k + 1, [nodeRepairMessages d]⟩ ∧
       (processStoryNode (fuel + 2) llm k db storyId nd isRoot).res =
         Except.error (GenError.nodeRepairFailed e2) ∧
       (processStoryNode (fuel + 2) llm k db storyId nd isRoot).log =
         [nodeRepairMessages d]) := by
  constructor
  · intro rt n h1 h2
    simp [resolveChild, hv, h1, h2]
  · intro rt e2 h1 h2
    have hr : resolveChild llm k (NodeData.dict d) =
        (Except.error (GenError.nodeRepairFailed e2), k + 1, [nodeRepairMessages d]) := by
      simp [resolveChild, hv, h1, h2]
    have hpo : ∀ db' : DB, processOptions (fuel + 1) llm k db' storyId
        (StoryOptionLLM.mk t (NodeData.dict d) :: rest) =
        ⟨Except.error (GenError.nodeRepairFailed e2), db', k + 1, [nodeRepairMessages d]⟩ := by
      intro db'
      simp [processOptions, StoryOptionLLM.nextNode, hr]
    have h22 : fuel + 2 = (fuel + 1) + 1 := rfl
    rw [h22]
    refine ⟨hr, hpo db, ?_, ?_⟩ <;>
      simp [processStoryNode, hne, hopts, hpo]

theorem c5_single_node_repair_witness :
    (processStoryNode 2 llmStillBad 0 DB.empty 7 nodeWithBadChild false).res =
      Except.error (GenError.nodeRepairFailed "still invalid") ∧
    (processStoryNode 2 llmStillBad 0 DB.empty 7 nodeWithBadChild false).log =
      [nodeRepairMessages endBadDict] := by
  have h := (c5_single_node_repair 0 llmStillBad 0 DB.empty 7 "left"
      "options must be empty on an ending node" endBadDict
      [StoryOptionLLM.mk "right" (NodeData.typed endWin)] nodeWithBadChild false
      rfl rfl rfl).2 (RawText.junk "still invalid") "still invalid" rfl rfl
  exact ⟨h.2.2.1, h.2.2.2⟩

/-! ## Claim C1 -/

/-- Helper: acceptance soundness of the loop — any document the loop
returns with `Except.ok` has passed the secondary root check. -/
theorem attemptLoop_accept_rootCheck (n : Nat) :
    ∀ (llm : Nat → LLMResult) (theme : String) (le : Option String) (k : Nat)
      (doc : StoryLLMResponse),
      (attemptLoop llm theme le k n).res = Except.ok doc →
      rootCheck doc = Except.ok () := by
  induction n with
  | zero =>
    intro llm theme le k doc h
    simp [attemptLoop_zero] at h
  | succ m ih =>
    intro llm theme le k doc h
    simp only [attemptLoop] at h
    cases hl : llm k <;> simp only [hl] at h
    case transportFail => simp at h
    case text r =>
      cases hp : docParse r <;> simp only [hp] at h
      case error e =>
        cases hl2 : llm (k + 1) <;> simp only [hl2] at h
        case transportFail => simp at h
        case text r2 => exact ih llm theme (some e) (k + 2) doc (by simpa using h)
      case ok doc0 =>
        cases hrc : rootCheck doc0 <;> simp only [hrc] at h
        case error ve =>
          cases hl2 : llm (k + 1) <;> simp only [hl2] at h
          case transportFail =>
            cases hl3 : llm (k + 2) <;> simp only [hl3] at h
            case transportFail => simp at h
            case text r3 =>
              exact ih llm theme (some transportErrorText) (k + 3) doc (by simpa using h)
          case text r2 =>
            cases hp2 : docParse r2 <;> simp only [hp2] at h
            case error e2 => exact ih llm theme (some e2) (k + 2) doc (by simpa using h)
            case ok doc2 =>
              cases hrc2 : rootCheck doc2 <;> simp only [hrc2] at h
              case error e2 => exact ih llm theme (some e2) (k + 2) doc (by simpa using h)
              case ok u =>
                simp at h
                subst h
                exact hrc2
        case ok u =>
          simp at h
          subst h
          exact hrc

/-- Claim C1: if every model answer is text that fails whole-document
validation, the loop terminates after exactly `MAX_RETRIES` = 3
attempts (three initial-instruction calls, each followed by one repair
call: six sends in all), raising the budget-exhaustion error that
carries the last observed validation error — the parse error of the
third attempt's generation answer (call index 4) — and `generate_story`
surfaces that error without touching the session. -/
theorem c1_budget_exhaustion (llm : Nat → LLMResult) (db : DB)
    (sessionId theme : String)
    (h : ∀ j, ∃ s e, llm j = LLMResult.text s ∧ docParse s = Except.error e) :
    ∃ e0 e1 e2,
      attemptLoop llm theme none 0 MAX_RETRIES =
        ⟨Except.error (GenError.exhausted (some e2)), 6,
         [initialMessages theme, docRepairMessages e0,
          initialMessages theme, docRepairMessages e1,
          initialMessages theme, docRepairMessages e2]⟩ ∧
      (∃ s, llm 4 = LLMResult.text s ∧ docParse s = Except.error e2) ∧
      (generateStory llm db sessionId theme).res =
        Except.error (GenError.exhausted (some e2)) ∧
      (generateStory llm db sessionId theme).db = db := by
  obtain ⟨s0, e0, hs0, he0⟩ := h 0
  obtain ⟨s1, f1, hs1, hf1⟩ := h 1
  obtain ⟨s2, e1, hs2, he2⟩ := h 2
  obtain ⟨s3, f3, hs3, hf3⟩ := h 3
  obtain ⟨s4, e2, hs4, he4⟩ := h 4
  obtain ⟨s5, f5, hs5, hf5⟩ := h 5
  have A2 : attemptLoop llm theme (some e1) 4 1 =
      ⟨Except.error (GenError.exhausted (some e2)), 6,
       [initialMessages theme, docRepairMessages e2]⟩ := by
    have step := attemptLoop_parseFail theme (some e1) 0 hs4 he4 hs5
    simpa [attemptLoop_zero] using step
  have A1 : attemptLoop llm theme (some e0) 2 2 =
      ⟨Except.error (GenError.exhausted (some e2)), 6,
       [initialMessages theme, docRepairMessages e1,
        initialMessages theme, docRepairMessages e2]⟩ := by
    have step := attemptLoop_parseFail theme (some e0) 1 hs2 he2 hs3
    simpa [A2] using step
  have A0 : attemptLoop llm theme none 0 3 =
      ⟨Except.error (GenError.exhausted (some e2)), 6,
       [initialMessages theme, docRepairMessages e0,
        initialMessages theme, docRepairMessages e1,
        initialMessages theme, docRepairMessages e2]⟩ := by
    have step := attemptLoop_parseFail theme none 2 hs0 he0 hs1
    simpa [A1] using step
  refine ⟨e0, e1, e2, A0, ⟨s4, hs4, he4⟩, ?_, ?_⟩ <;>
    simp [generateStory, MAX_RETRIES, A0]

theorem c1_budget_exhaustion_witness :
    ∃ e0 e1 e2,
      attemptLoop llmJunk "fantasy" none 0 MAX_RETRIES =
        ⟨Except.error (GenError.exhausted (some e2)), 6,
         [initialMessages "fantasy", docRepairMessages e0,
          initialMessages "fantasy", docRepairMessages e1,
          initialMessages "fantasy", docRepairMessages e2]⟩ ∧
      (∃ s, llmJunk 4 = LLMResult.text s ∧ docParse s = Except.error e2) ∧
      (generateStory llmJunk DB.empty "s1" "fantasy").res =
        Except.error (GenError.exhausted (some e2)) ∧
      (generateStory llmJunk DB.empty "s1" "fantasy").db = DB.empty :=
  c1_budget_exhaustion llmJunk DB.empty "s1" "fantasy"
    (fun _ => ⟨RawText.junk "bad", "bad", rfl, rfl⟩)

/-! ## Claim C7 -/

/-- Claim C7: after a successful whole-document parse the loop runs the
secondary root check.  First conjunct: a document is accepted only if
the root check passes.  Second: when the check fails, the loop builds
the root repair prompt (quoting the validation error and the previous
raw output) and retries exactly once inline — if the retry parses and
its root check passes, that document is accepted within the same
attempt, two calls having been made.  Third and fourth: if the inline
retry fails (parse failure, or root check failure), control falls
through to the next outer attempt carrying the new error, with exactly
the initial and root-repair message pairs logged for this attempt. -/
theorem c7_root_check_inline_retry :
    (∀ (llm : Nat → LLMResult) (theme : String) (le : Option String) (k n : Nat)
       (doc : StoryLLMResponse),
       (attemptLoop llm theme le k n).res = Except.ok doc →
       rootCheck doc = Except.ok ()) ∧
    (∀ (llm : Nat → LLMResult) (theme : String) (le : Option String) (k n : Nat)
       (r r2 : RawText) (doc doc2 : StoryLLMResponse) (ve : String) (u : Unit),
       llm k = LLMResult.text r → docParse r = Except.ok doc →
       rootCheck doc = Except.error ve →
       llm (k + 1) = LLMResult.text r2 → docParse r2 = Except.ok doc2 →
       rootCheck doc2 = Except.ok u →
       attemptLoop llm theme le k (n + 1) =
         ⟨Except.ok doc2, k + 2,
          [initialMessages theme, rootRepairMessages ve r.render]⟩) ∧
    (∀ (llm : Nat → LLMResult) (theme : String) (le : Option String) (k n : Nat)
       (r r2 : RawText) (doc : StoryLLMResponse) (ve e2 : String),
       llm k = LLMResult.text r → docParse r = Except.ok doc →
       rootCheck doc = Except.error ve →
       llm (k + 1) = LLMResult.text r2 → docParse r2 = Except.error e2 →
       attemptLoop llm theme le k (n + 1) =
         ⟨(attemptLoop llm theme (some e2) (k + 2) n).res,
          (attemptLoop llm theme (some e2) (k + 2) n).next,
          initialMessages theme :: rootRepairMessages ve r.render ::
            (attemptLoop llm theme (some e2) (k + 2) n).log⟩) ∧
    (∀ (llm : Nat → LLMResult) (theme : String) (le : Option String) (k n : Nat)
       (r r2 : RawText) (doc doc2 : StoryLLMResponse) (ve e2 : String),
       llm k = LLMResult.text r → docParse r = Except.ok doc →
       rootCheck doc = Except.error ve →
       llm (k + 1) = LLMResult.text r2 → docParse r2 = Except.ok doc2 →
       rootCheck doc2 = Except.error e2 →
       attemptLoop llm theme le k (n + 1) =
         ⟨(attemptLoop llm theme (some e2) (k + 2) n).res,
          (attemptLoop llm theme (some e2) (k + 2) n).next,
          initialMessages theme :: rootRepairMessages ve r.render ::
            (attemptLoop llm theme (some e2) (k + 2) n).log⟩) :=
  ⟨fun llm theme le k n => attemptLoop_accept_rootCheck n llm theme le k,
   fun llm theme le k n r r2 doc doc2 ve u h1 h2 h3 h4 h5 h6 =>
     attemptLoop_rootRepairAccept theme le n h1 h2 h3 h4 h5 h6,
   fun llm theme le k n r r2 doc ve e2 h1 h2 h3 h4 h5 =>
     attemptLoop_rootRepairParseFail theme le n h1 h2 h3 h4 h5,
   fun llm theme le k n r r2 doc doc2 ve e2 h1 h2 h3 h4 h5 h6 =>
     attemptLoop_rootRepairCheckFail theme le n h1 h2 h3 h4 h5 h6⟩

theorem c7_root_check_inline_retry_witness :
    attemptLoop llmRootRepair "fantasy" none 0 3 =
      ⟨Except.ok docGood, 2,
       [initialMessages "fantasy",
        rootRepairMessages "field required: isEnding" (RawText.doc docBadRoot).render]⟩ :=
  c7_root_check_inline_retry.2.1 llmRootRepair "fantasy" none 0 2
    (RawText.doc docBadRoot) (RawText.doc docGood) docBadRoot docGood
    "field required: isEnding" () rfl rfl rfl rfl rfl rfl

/-! ## Materializer invariant -/

theorem newRowsOk_nil (sid lo hi : Nat) : newRowsOk sid lo hi [] :=
  fun r hr => absurd hr (List.not_mem_nil r)

theorem newRowsOk_mono {sid lo hi lo' hi' : Nat} {new : List NodeRow}
    (h : newRowsOk sid lo hi new) (h1 : lo' ≤ lo) (h2 : hi ≤ hi') :
    newRowsOk sid lo' hi' new := by
  intro r hr
  obtain ⟨a, b, c, w⟩ := h r hr
  exact ⟨a, h1.trans b, c.trans_le h2, w⟩

theorem newRowsOk_append {sid lo hi : Nat} {a b : List NodeRow}
    (ha : newRowsOk sid lo hi a) (hb : newRowsOk sid lo hi b) :
    newRowsOk sid lo hi (a ++ b) := by
  intro r hr
  rcases List.mem_append.mp hr with h | h
  · obtain ⟨x, y, z, w⟩ := ha r h
    refine ⟨x, y, z, fun o ho => ?_⟩
    obtain ⟨r2, hr2, hid, hsid⟩ := w o ho
    exact ⟨r2, List.mem_append.mpr (Or.inl hr2), hid, hsid⟩
  · obtain ⟨x, y, z, w⟩ := hb r h
    refine ⟨x, y, z, fun o ho => ?_⟩
    obtain ⟨r2, hr2, hid, hsid⟩ := w o ho
    exact ⟨r2, List.mem_append.mpr (Or.inr hr2), hid, hsid⟩

theorem newRowsOk_cons {sid lo hi : Nat} {r : NodeRow} {new : List NodeRow}
    (h1 : r.story_id = sid) (h2 : lo ≤ r.id) (h3 : r.id < hi)
    (h4 : ∀ o ∈ r.options, ∃ r2, r2 ∈ new ∧ r2.id = o.node_id ∧ r2.story_id = sid)
    (h5 : newRowsOk sid lo hi new) : newRowsOk sid lo hi (r :: new) := by
  intro x hx
  rcases List.mem_cons.mp hx with h | h
  · subst h
    refine ⟨h1, h2, h3, fun o ho => ?_⟩
    obtain ⟨r2, a, b, c⟩ := h4 o ho
    exact ⟨r2, List.mem_cons_of_mem _ a, b, c⟩
  · obtain ⟨a, b, c, w⟩ := h5 x h
    refine ⟨a, b, c, fun o ho => ?_⟩
    obtain ⟨r2, m, i, s⟩ := w o ho
    exact ⟨r2, List.mem_cons_of_mem _ m, i, s⟩

/-- Updating the options of a row identity that occurs nowhere in the
list leaves the list unchanged. -/
theorem map_setOpt_of_ne (l : List NodeRow) (nid : Nat) (opts : List OptionRow)
    (h : ∀ r ∈ l, r.id ≠ nid) :
    l.map (fun r => if r.id = nid then { r with options := opts } else r) = l := by
  induction l with
  | nil => rfl
  | cons x xs ih =>
    simp only [List.map_cons]
    rw [if_neg (h x (List.mem_cons_self x xs)),
        ih (fun r hr => h r (List.mem_cons_of_mem x hr))]

/-- Updating one row identity in the middle of a pending block rewrites
exactly that row. -/
theorem setOpt_append_block (l1 : List NodeRow) (row0 : NodeRow) (l2 : List NodeRow)
    (nid : Nat) (opts : List OptionRow)
    (h1 : ∀ r ∈ l1, r.id ≠ nid) (h0 : row0.id = nid) (h2 : ∀ r ∈ l2, r.id ≠ nid) :
    (l1 ++ row0 :: l2).map
        (fun r => if r.id = nid then { r with options := opts } else r) =
      l1 ++ { row0 with options := opts } :: l2 := by
  rw [List.map_append, map_setOpt_of_ne l1 nid opts h1, List.map_cons, if_pos h0,
      map_setOpt_of_ne l2 nid opts h2]

/-- Chaining helper: one materializer step keeps all pending row
identities below the (advanced) session counter. -/
theorem pendBound_extend {db outdb : DB} {sid : Nat} {new : List NodeRow}
    (h1 : outdb.pendingNodes = db.pendingNodes ++ new)
    (h2 : db.nextId ≤ outdb.nextId)
    (h3 : newRowsOk sid db.nextId outdb.nextId new)
    (h0 : ∀ r ∈ db.pendingNodes, r.id < db.nextId) :
    ∀ r ∈ outdb.pendingNodes, r.id < outdb.nextId := by
  intro r hr
  rw [h1] at hr
  rcases List.mem_append.mp hr with h | h
  · exact (h0 r h).trans_le h2
  · exact (h3 r h).2.2.1

/-- The central invariant of the tree materializer: one call appends a
block of fresh rows (existing pending rows untouched), all belonging to
the materialized story, with identities drawn from the fresh counter
range; every option edge stored on an appended row points at another
appended row of the same story; and on success the returned row is the
inserted one, an ending row keeping an empty options column and a
branching row storing exactly the input option labels in order. -/
theorem processInv (fuel : Nat) :
    (∀ (llm : Nat → LLMResult) (k : Nat) (db : DB) (storyId : Nat)
       (nd : StoryNodeLLM) (isRoot : Bool),
       (∀ r ∈ db.pendingNodes, r.id < db.nextId) →
       ∃ new,
         (processStoryNode fuel llm k db storyId nd isRoot).db.pendingNodes =
           db.pendingNodes ++ new ∧
         db.nextId ≤ (processStoryNode fuel llm k db storyId nd isRoot).db.nextId ∧
         newRowsOk storyId db.nextId
           (processStoryNode fuel llm k db storyId nd isRoot).db.nextId new ∧
         (∀ row, (processStoryNode fuel llm k db storyId nd isRoot).res = Except.ok row →
            row ∈ new ∧ row.story_id = storyId ∧ row.content = nd.content ∧
            row.is_root = isRoot ∧ row.is_ending = nd.isEnding ∧
            row.is_winning_ending = nd.isWinningEnding ∧
            (nd.isEnding = true → row.options = []) ∧
            row.options.map OptionRow.text =
              (if nd.isEnding then [] else nd.options.map StoryOptionLLM.text))) ∧
    (∀ (llm : Nat → LLMResult) (k : Nat) (db : DB) (storyId : Nat)
       (opts : List StoryOptionLLM),
       (∀ r ∈ db.pendingNodes, r.id < db.nextId) →
       ∃ new,
         (processOptions fuel llm k db storyId opts).db.pendingNodes =
           db.pendingNodes ++ new ∧
         db.nextId ≤ (processOptions fuel llm k db storyId opts).db.nextId ∧
         newRowsOk storyId db.nextId
           (processOptions fuel llm k db storyId opts).db.nextId new ∧
         (∀ payload, (processOptions fuel llm k db storyId opts).res = Except.ok payload →
            payload.map OptionRow.text = opts.map StoryOptionLLM.text ∧
            ∀ o ∈ payload, ∃ r2, r2 ∈ new ∧ r2.id = o.node_id ∧
              r2.story_id = storyId)) := by
  induction fuel with
  | zero =>
    constructor
    · intro llm k db storyId nd isRoot hpend
      refine ⟨[], by simp [processStoryNode], le_refl _,
        newRowsOk_nil _ _ _, fun row hrow => ?_⟩
      simp [processStoryNode] at hrow
    · intro llm k db storyId opts hpend
      refine ⟨[], by simp [processOptions], le_refl _,
        newRowsOk_nil _ _ _, fun payload hp => ?_⟩
      simp [processOptions] at hp
  | succ f ih =>
    constructor
    · intro llm k db storyId nd isRoot hpend
      by_cases he : nd.isEnding
      · -- ending node: a single inserted row, no recursion
        have hred : processStoryNode (f + 1) llm k db storyId nd isRoot =
            ⟨Except.ok ⟨db.nextId, storyId, nd.content, isRoot, nd.isEnding,
                nd.isWinningEnding, []⟩,
             (db.addNode storyId nd.content isRoot nd.isEnding nd.isWinningEnding).2,
             k, []⟩ := by
          simp only [processStoryNode, he, if_true, DB.addNode]
        rw [hred]
        refine ⟨[⟨db.nextId, storyId, nd.content, isRoot, nd.isEnding,
            nd.isWinningEnding, []⟩], by simp [DB.addNode], ?_, ?_, ?_⟩
        · simp [DB.addNode]
        · intro r hr
          rcases List.mem_singleton.mp hr with h
          subst h
          refine ⟨rfl, le_refl _, by simp [DB.addNode], fun o ho => ?_⟩
          simp at ho
        · intro row hrow
          simp only [Except.ok.injEq] at hrow
          subst hrow
          exact ⟨List.mem_singleton.mpr rfl, rfl, rfl, rfl, rfl, rfl,
            fun _ => rfl, by simp [he]⟩
      · -- branching node: insert, recurse over options, write back payload
        simp only [Bool.not_eq_true] at he
        obtain ⟨new2, hP2, hM2, hOk2, hRes2⟩ :=
          ih.2 llm k (db.addNode storyId nd.content isRoot false nd.isWinningEnding).2
            storyId nd.options (by
              intro r hr
              simp only [DB.addNode, List.mem_append, List.mem_singleton] at hr
              rcases hr with h | h
              · exact Nat.lt_succ_of_lt (hpend r h)
              · subst h; exact Nat.lt_succ_self _)
        have hP1 : (db.addNode storyId nd.content isRoot false
            nd.isWinningEnding).2.pendingNodes =
            db.pendingNodes ++ [⟨db.nextId, storyId, nd.content, isRoot, false,
              nd.isWinningEnding, []⟩] := by
          simp [DB.addNode]
        have hN1 : (db.addNode storyId nd.content isRoot false
            nd.isWinningEnding).2.nextId = db.nextId + 1 := by
          simp [DB.addNode]
        cases hpo : (processOptions f llm k
            (db.addNode storyId nd.content isRoot false nd.isWinningEnding).2
            storyId nd.options).res with
        | error e =>
          have hred : processStoryNode (f + 1) llm k db storyId nd isRoot =
              ⟨Except.error e,
               (processOptions f llm k (db.addNode storyId nd.content isRoot false
                   nd.isWinningEnding).2 storyId nd.options).db,
               (processOptions f llm k (db.addNode storyId nd.content isRoot false
                   nd.isWinningEnding).2 storyId nd.options).next,
               (processOptions f llm k (db.addNode storyId nd.content isRoot false
                   nd.isWinningEnding).2 storyId nd.options).log⟩ := by
            simp only [processStoryNode]
            simp only [he, Bool.false_eq_true, if_false]
            simp only [hpo]
          rw [hred]
          refine ⟨⟨db.nextId, storyId, nd.content, isRoot, false,
              nd.isWinningEnding, []⟩ :: new2, ?_, ?_, ?_, ?_⟩
          · rw [hP2, hP1, List.append_assoc, List.singleton_append]
          · rw [hN1] at hM2
            exact (Nat.le_succ _).trans hM2
          · rw [hN1] at hOk2 hM2
            refine newRowsOk_cons rfl (le_refl _)
              (Nat.lt_of_lt_of_le (Nat.lt_succ_self _) hM2)
              (fun o ho => by simp at ho)
              (newRowsOk_mono hOk2 (Nat.le_succ _) (le_refl _))
          · intro row hrow
            simp at hrow
        | ok payload =>
          have hred : processStoryNode (f + 1) llm k db storyId nd isRoot =
              ⟨Except.ok ⟨db.nextId, storyId, nd.content, isRoot, false,
                  nd.isWinningEnding, payload⟩,
               ((processOptions f llm k (db.addNode storyId nd.content isRoot false
                   nd.isWinningEnding).2 storyId nd.options).db).setNodeOptions
                 db.nextId payload,
               (processOptions f llm k (db.addNode storyId nd.content isRoot false
                   nd.isWinningEnding).2 storyId nd.options).next,
               (processOptions f llm k (db.addNode storyId nd.content isRoot false
                   nd.isWinningEnding).2 storyId nd.options).log⟩ := by
            simp only [processStoryNode]
            simp only [he, Bool.false_eq_true, if_false]
            simp only [hpo]
            rfl
          rw [hred]
          rw [hN1] at hM2 hOk2
          have hupPend : (((processOptions f llm k (db.addNode storyId nd.content
              isRoot false nd.isWinningEnding).2 storyId nd.options).db).setNodeOptions
                db.nextId payload).pendingNodes =
              db.pendingNodes ++
                (⟨db.nextId, storyId, nd.content, isRoot, false,
                   nd.isWinningEnding, payload⟩ :: new2) := by
            show ((processOptions f llm k (db.addNode storyId nd.content isRoot false
                nd.isWinningEnding).2 storyId nd.options).db).pendingNodes.map
                  (fun r => if r.id = db.nextId then { r with options := payload }
                    else r) = _
            rw [hP2, hP1, List.append_assoc, List.singleton_append]
            exact setOpt_append_block db.pendingNodes
              ⟨db.nextId, storyId, nd.content, isRoot, false, nd.isWinningEnding, []⟩
              new2 db.nextId payload
              (fun r hr => Nat.ne_of_lt (hpend r hr)) rfl
              (fun r hr => Nat.ne_of_gt (Nat.lt_of_succ_le (hOk2 r hr).2.1))
          have hupNext : (((processOptions f llm k (db.addNode storyId nd.content
              isRoot false nd.isWinningEnding).2 storyId nd.options).db).setNodeOptions
                db.nextId payload).nextId =
              (processOptions f llm k (db.addNode storyId nd.content isRoot false
                nd.isWinningEnding).2 storyId nd.options).db.nextId := rfl
          refine ⟨⟨db.nextId, storyId, nd.content, isRoot, false,
              nd.isWinningEnding, payload⟩ :: new2, hupPend, ?_, ?_, ?_⟩
          · rw [hupNext]
            exact (Nat.le_succ _).trans hM2
          · rw [hupNext]
            refine newRowsOk_cons rfl (le_refl _)
              (Nat.lt_of_lt_of_le (Nat.lt_succ_self _) hM2)
              (fun o ho => (hRes2 payload hpo).2 o ho)
              (newRowsOk_mono hOk2 (Nat.le_succ _) (le_refl _))
          · intro row hrow
            simp only [Except.ok.injEq] at hrow
            subst hrow
            refine ⟨List.mem_cons_self _ _, rfl, rfl, rfl, he.symm, rfl,
              fun hcontra => ?_, ?_⟩
            · rw [he] at hcontra; exact absurd hcontra (by simp)
            · simp only [he, Bool.false_eq_true, if_false]
              exact (hRes2 payload hpo).1
    · intro llm k db storyId opts hpend
      cases opts with
      | nil =>
        have hred : processOptions (f + 1) llm k db storyId [] =
            ⟨Except.ok [], db, k, []⟩ := by
          simp [processOptions]
        rw [hred]
        refine ⟨[], by simp, le_refl _, newRowsOk_nil _ _ _, fun payload hp => ?_⟩
        simp only [Except.ok.injEq] at hp
        subst hp
        exact ⟨rfl, fun o ho => absurd ho (List.not_mem_nil o)⟩
      | cons opt rest =>
        rcases hr : resolveChild llm k opt.nextNode with ⟨r1, k1, lg⟩
        cases r1 with
        | error e =>
          have hred : processOptions (f + 1) llm k db storyId (opt :: rest) =
              ⟨Except.error e, db, k1, lg⟩ := by
            simp [processOptions, hr]
          rw [hred]
          refine ⟨[], by simp, le_refl _, newRowsOk_nil _ _ _, fun payload hp => ?_⟩
          simp at hp
        | ok child =>
          obtain ⟨new1, hP1, hM1, hOk1, hRes1⟩ :=
            ih.1 llm k1 db storyId child false hpend
          cases hc : (processStoryNode f llm k1 db storyId child false).res with
          | error e =>
            have hred : processOptions (f + 1) llm k db storyId (opt :: rest) =
                ⟨Except.error e,
                 (processStoryNode f llm k1 db storyId child false).db,
                 (processStoryNode f llm k1 db storyId child false).next,
                 lg ++ (processStoryNode f llm k1 db storyId child false).log⟩ := by
              simp [processOptions, hr, hc]
            rw [hred]
            exact ⟨new1, hP1, hM1, hOk1, fun payload hp => by simp at hp⟩
          | ok childRow =>
            have hpendC := pendBound_extend hP1 hM1 hOk1 hpend
            obtain ⟨new3, hP3, hM3, hOk3, hRes3⟩ :=
              ih.2 llm (processStoryNode f llm k1 db storyId child false).next
                (processStoryNode f llm k1 db storyId child false).db
                storyId rest hpendC
            cases hpo : (processOptions f llm
                (processStoryNode f llm k1 db storyId child false).next
                (processStoryNode f llm k1 db storyId child false).db
                storyId rest).res with
            | error e =>
              have hred : processOptions (f + 1) llm k db storyId (opt :: rest) =
                  ⟨Except.error e,
                   (processOptions f llm
                     (processStoryNode f llm k1 db storyId child false).next
                     (processStoryNode f llm k1 db storyId child false).db
                     storyId rest).db,
                   (processOptions f llm
                     (processStoryNode f llm k1 db storyId child false).next
                     (processStoryNode f llm k1 db storyId child false).db
                     storyId rest).next,
                   lg ++ ((processStoryNode f llm k1 db storyId child false).log ++
                     (processOptions f llm
                       (processStoryNode f llm k1 db storyId child false).next
                       (processStoryNode f llm k1 db storyId child false).db
                       storyId rest).log)⟩ := by
                simp [processOptions, hr, hc, hpo]
              rw [hred]
              refine ⟨new1 ++ new3, ?_, hM1.trans hM3, ?_, fun payload hp => by simp at hp⟩
              · rw [hP3, hP1, List.append_assoc]
              · exact newRowsOk_append (newRowsOk_mono hOk1 (le_refl _) hM3)
                  (newRowsOk_mono hOk3 hM1 (le_refl _))
            | ok payload =>
              have hred : processOptions (f + 1) llm k db storyId (opt :: rest) =
                  ⟨Except.ok (⟨opt.text, childRow.id⟩ :: payload),
                   (processOptions f llm
                     (processStoryNode f llm k1 db storyId child false).next
                     (processStoryNode f llm k1 db storyId child false).db
                     storyId rest).db,
                   (processOptions f llm
                     (processStoryNode f llm k1 db storyId child false).next
                     (processStoryNode f llm k1 db storyId child false).db
                     storyId rest).next,
                   lg ++ ((processStoryNode f llm k1 db storyId child false).log ++
                     (processOptions f llm
                       (processStoryNode f llm k1 db storyId child false).next
                       (processStoryNode f llm k1 db storyId child false).db
                       storyId rest).log)⟩ := by
                simp [processOptions, hr, hc, hpo]
              rw [hred]
              refine ⟨new1 ++ new3, ?_, hM1.trans hM3, ?_, ?_⟩
              · rw [hP3, hP1, List.append_assoc]
              · exact newRowsOk_append (newRowsOk_mono hOk1 (le_refl _) hM3)
                  (newRowsOk_mono hOk3 hM1 (le_refl _))
              · intro payload' hp
                simp only [Except.ok.injEq] at hp
                subst hp
                constructor
                · simp only [List.map_cons]
                  rw [(hRes3 payload hpo).1]
                · intro o ho
                  rcases List.mem_cons.mp ho with h | h
                  · subst h
                    obtain ⟨hmem, hsid, _⟩ := hRes1 childRow hc
                    exact ⟨childRow, List.mem_append.mpr (Or.inl hmem), rfl, hsid⟩
                  · obtain ⟨r2, hmem, hid, hsid⟩ := (hRes3 payload hpo).2 o h
                    exact ⟨r2, List.mem_append.mpr (Or.inr hmem), hid, hsid⟩

/-! ## Claim C3 -/

/-- Claim C3: `generate_story` commits exactly once, at the very end,
after the whole tree has been materialized.  On every failure path —
budget exhaustion, transport failure, root conversion failure, or a
node-repair failure during materialization — the committed rows and the
commit counter are exactly those of the incoming session: nothing is
ever committed.  On success the single commit happens (counter advances
by one) and it flushes the whole pending story at once. -/
theorem c3_atomic_commit (llm : Nat → LLMResult) (db : DB)
    (sessionId theme : String) :
    (∀ e, (generateStory llm db sessionId theme).res = Except.error e →
       (generateStory llm db sessionId theme).db.committedStories =
         db.committedStories ∧
       (generateStory llm db sessionId theme).db.committedNodes =
         db.committedNodes ∧
       (generateStory llm db sessionId theme).db.commits = db.commits) ∧
    (∀ s, (generateStory llm db sessionId theme).res = Except.ok s →
       (generateStory llm db sessionId theme).db.commits = db.commits + 1 ∧
       (generateStory llm db sessionId theme).db.pendingNodes = [] ∧
       (generateStory llm db sessionId theme).db.pendingStories = []) := by
  cases hlo : (attemptLoop llm theme none 0 MAX_RETRIES).res with
  | error e0 =>
    have hg : generateStory llm db sessionId theme =
        ⟨Except.error e0, db, (attemptLoop llm theme none 0 MAX_RETRIES).log⟩ := by
      simp only [generateStory, hlo]
    rw [hg]
    exact ⟨fun e he => ⟨rfl, rfl, rfl⟩, fun s hs => by simp at hs⟩
  | ok doc =>
    cases hrt : rootToTyped doc.rootNode with
    | error e0 =>
      have hg : generateStory llm db sessionId theme =
          ⟨Except.error (GenError.rootConvert e0),
           (db.addStory doc.title sessionId).2,
           (attemptLoop llm theme none 0 MAX_RETRIES).log⟩ := by
        simp only [generateStory, hlo, hrt]
      rw [hg]
      exact ⟨fun e he => ⟨rfl, rfl, rfl⟩, fun s hs => by simp at hs⟩
    | ok rootNode =>
      have hfr : framePreserved db
          (processStoryNode materializeFuel llm
            (attemptLoop llm theme none 0 MAX_RETRIES).next
            (db.addStory doc.title sessionId).2
            (db.addStory doc.title sessionId).1 rootNode true).db :=
        framePreserved_trans (framePreserved_addStory db doc.title sessionId)
          ((processFrame materializeFuel).1 llm
            (attemptLoop llm theme none 0 MAX_RETRIES).next
            (db.addStory doc.title sessionId).2
            (db.addStory doc.title sessionId).1 rootNode true)
      cases hm : (processStoryNode materializeFuel llm
          (attemptLoop llm theme none 0 MAX_RETRIES).next
          (db.addStory doc.title sessionId).2
          (db.addStory doc.title sessionId).1 rootNode true).res with
      | error e0 =>
        have hg : generateStory llm db sessionId theme =
            ⟨Except.error e0,
             (processStoryNode materializeFuel llm
               (attemptLoop llm theme none 0 MAX_RETRIES).next
               (db.addStory doc.title sessionId).2
               (db.addStory doc.title sessionId).1 rootNode true).db,
             (attemptLoop llm theme none 0 MAX_RETRIES).log ++
               (processStoryNode materializeFuel llm
                 (attemptLoop llm theme none 0 MAX_RETRIES).next
                 (db.addStory doc.title sessionId).2
                 (db.addStory doc.title sessionId).1 rootNode true).log⟩ := by
          simp only [generateStory, hlo, hrt, hm]
        rw [hg]
        exact ⟨fun e he => ⟨hfr.1, hfr.2.1, hfr.2.2⟩, fun s hs => by simp at hs⟩
      | ok row =>
        have hg : generateStory llm db sessionId theme =
            ⟨Except.ok ⟨(db.addStory doc.title sessionId).1, doc.title, sessionId⟩,
             (processStoryNode materializeFuel llm
               (attemptLoop llm theme none 0 MAX_RETRIES).next
               (db.addStory doc.title sessionId).2
               (db.addStory doc.title sessionId).1 rootNode true).db.commit,
             (attemptLoop llm theme none 0 MAX_RETRIES).log ++
               (processStoryNode materializeFuel llm
                 (attemptLoop llm theme none 0 MAX_RETRIES).next
                 (db.addStory doc.title sessionId).2
                 (db.addStory doc.title sessionId).1 rootNode true).log⟩ := by
          simp only [generateStory, hlo, hrt, hm]
        rw [hg]
        refine ⟨fun e he => by simp at he, fun s hs => ⟨?_, rfl, rfl⟩⟩
        show ((processStoryNode materializeFuel llm
            (attemptLoop llm theme none 0 MAX_RETRIES).next
            (db.addStory doc.title sessionId).2
            (db.addStory doc.title sessionId).1 rootNode true).db.commit).commits =
          db.commits + 1
        simp only [DB.commit]
        rw [hfr.2.2]

theorem c3_atomic_commit_witness :
    ((generateStory llmTrans DB.empty "s1" "fantasy").db.commits =
      DB.empty.commits) ∧
    ((generateStory llmGood DB.empty "s1" "fantasy").db.commits =
      DB.empty.commits + 1) :=
  ⟨((c3_atomic_commit llmTrans DB.empty "s1" "fantasy").1
      GenError.transport rfl).2.2,
   ((c3_atomic_commit llmGood DB.empty "s1" "fantasy").2 ⟨0, "T", "s1"⟩ rfl).1⟩

/-! ## Claim C8 -/

/-- Claim C8: for every materialized node, if the node is an ending no
options are processed — the returned and stored row keeps an empty
options sequence, only that one row is appended, and no model call is
consumed; otherwise the stored options sequence pairs the input option
labels in input order (same labels, same order, one stored pair per
input option). -/
theorem c8_options_order (fuel : Nat) (llm : Nat → LLMResult) (k : Nat)
    (db : DB) (storyId : Nat) (nd : StoryNodeLLM) (isRoot : Bool) (row : NodeRow)
    (hpend : ∀ r ∈ db.pendingNodes, r.id < db.nextId)
    (hok : (processStoryNode fuel llm k db storyId nd isRoot).res = Except.ok row) :
    (nd.isEnding = true → row.options = [] ∧
       (processStoryNode fuel llm k db storyId nd isRoot).db.pendingNodes =
         db.pendingNodes ++ [row] ∧
       (processStoryNode fuel llm k db storyId nd isRoot).next = k) ∧
    (nd.isEnding = false →
       row.options.map OptionRow.text = nd.options.map StoryOptionLLM.text ∧
       row.options.length = nd.options.length) := by
  constructor
  · intro he
    cases fuel with
    | zero => simp [processStoryNode] at hok
    | succ f =>
      have hred : processStoryNode (f + 1) llm k db storyId nd isRoot =
          ⟨Except.ok ⟨db.nextId, storyId, nd.content, isRoot, nd.isEnding,
              nd.isWinningEnding, []⟩,
           (db.addNode storyId nd.content isRoot nd.isEnding nd.isWinningEnding).2,
           k, []⟩ := by
        simp only [processStoryNode, he, if_true]
        rfl
      rw [hred] at hok
      simp only [Except.ok.injEq] at hok
      subst hok
      rw [hred]
      exact ⟨rfl, by simp [DB.addNode], rfl⟩
  · intro he
    obtain ⟨new, hP, hM, hOk, hRes⟩ :=
      (processInv fuel).1 llm k db storyId nd isRoot hpend
    have h := (hRes row hok).2.2.2.2.2.2.2
    rw [he] at h
    simp only [Bool.false_eq_true, if_false] at h
    refine ⟨h, ?_⟩
    have := congrArg List.length h
    simpa using this

theorem c8_options_order_witness :
    ((⟨0, 5, "Start", true, false, false,
        [⟨"Go left", 1⟩, ⟨"Go right", 2⟩]⟩ : NodeRow)).options.map OptionRow.text =
      rootGood.options.map StoryOptionLLM.text :=
  ((c8_options_order 10 llmGood 0 DB.empty 5 rootGood true
      ⟨0, 5, "Start", true, false, false, [⟨"Go left", 1⟩, ⟨"Go right", 2⟩]⟩
      (fun r hr => absurd hr (List.not_mem_nil r)) rfl).2 rfl).1

/-! ## Claim C4 -/

/-- Claim C4: in a session whose pre-existing committed node rows all
belong to earlier stories (identities below the session counter) and
with nothing pending, a successful `generate_story` leaves a committed
story in which every `node_id` stored in any of the new story's option
lists refers to a committed node row of that same story — no dangling
child reference, because a parent's options column is written only
after all of its children's inserts. -/
theorem c4_no_dangling_refs (llm : Nat → LLMResult) (db : DB)
    (sessionId theme : String) (s : StoryRow)
    (hpn : db.pendingNodes = []) (hps : db.pendingStories = [])
    (hcs : ∀ r ∈ db.committedNodes, r.story_id < db.nextId)
    (hok : (generateStory llm db sessionId theme).res = Except.ok s) :
    ∀ r ∈ (generateStory llm db sessionId theme).db.committedNodes,
      r.story_id = s.id →
      ∀ o ∈ r.options,
        ∃ r2, r2 ∈ (generateStory llm db sessionId theme).db.committedNodes ∧
          r2.id = o.node_id ∧ r2.story_id = s.id := by
  cases hlo : (attemptLoop llm theme none 0 MAX_RETRIES).res with
  | error e0 =>
    have hg : (generateStory llm db sessionId theme).res = Except.error e0 := by
      simp only [generateStory, hlo]
    rw [hg] at hok
    simp at hok
  | ok doc =>
    cases hrt : rootToTyped doc.rootNode with
    | error e0 =>
      have hg : (generateStory llm db sessionId theme).res =
          Except.error (GenError.rootConvert e0) := by
        simp only [generateStory, hlo, hrt]
      rw [hg] at hok
      simp at hok
    | ok rootNode =>
      obtain ⟨new, hP, hM, hOk, _⟩ :=
        (processInv materializeFuel).1 llm
          (attemptLoop llm theme none 0 MAX_RETRIES).next
          (db.addStory doc.title sessionId).2
          (db.addStory doc.title sessionId).1 rootNode true
          (by
            intro r hr
            have : (db.addStory doc.title sessionId).2.pendingNodes =
                db.pendingNodes := rfl
            rw [this, hpn] at hr
            exact absurd hr (List.not_mem_nil r))
      have hfr : framePreserved db
          (processStoryNode materializeFuel llm
            (attemptLoop llm theme none 0 MAX_RETRIES).next
            (db.addStory doc.title sessionId).2
            (db.addStory doc.title sessionId).1 rootNode true).db :=
        framePreserved_trans (framePreserved_addStory db doc.title sessionId)
          ((processFrame materializeFuel).1 llm
            (attemptLoop llm theme none 0 MAX_RETRIES).next
            (db.addStory doc.title sessionId).2
            (db.addStory doc.title sessionId).1 rootNode true)
      cases hm : (processStoryNode materializeFuel llm
          (attemptLoop llm theme none 0 MAX_RETRIES).next
          (db.addStory doc.title sessionId).2
          (db.addStory doc.title sessionId).1 rootNode true).res with
      | error e0 =>
        have hg : (generateStory llm db sessionId theme).res = Except.error e0 := by
          simp only [generateStory, hlo, hrt, hm]
        rw [hg] at hok
        simp at hok
      | ok row =>
        have hg : generateStory llm db sessionId theme =
            ⟨Except.ok ⟨(db.addStory doc.title sessionId).1, doc.title, sessionId⟩,
             (processStoryNode materializeFuel llm
               (attemptLoop llm theme none 0 MAX_RETRIES).next
               (db.addStory doc.title sessionId).2
               (db.addStory doc.title sessionId).1 rootNode true).db.commit,
             (attemptLoop llm theme none 0 MAX_RETRIES).log ++
               (processStoryNode materializeFuel llm
                 (attemptLoop llm theme none 0 MAX_RETRIES).next
                 (db.addStory doc.title sessionId).2
                 (db.addStory doc.title sessionId).1 rootNode true).log⟩ := by
          simp only [generateStory, hlo, hrt, hm]
        rw [hg] at hok ⊢
        simp only [Except.ok.injEq] at hok
        subst hok
        have hcommitted : ((processStoryNode materializeFuel llm
            (attemptLoop llm theme none 0 MAX_RETRIES).next
            (db.addStory doc.title sessionId).2
            (db.addStory doc.title sessionId).1 rootNode true).db.commit).committedNodes =
            db.committedNodes ++ new := by
          show (processStoryNode materializeFuel llm
              (attemptLoop llm theme none 0 MAX_RETRIES).next
              (db.addStory doc.title sessionId).2
              (db.addStory doc.title sessionId).1 rootNode true).db.committedNodes ++
            (processStoryNode materializeFuel llm
              (attemptLoop llm theme none 0 MAX_RETRIES).next
              (db.addStory doc.title sessionId).2
              (db.addStory doc.title sessionId).1 rootNode true).db.pendingNodes = _
          have haddp : (db.addStory doc.title sessionId).2.pendingNodes =
              db.pendingNodes := rfl
          rw [hfr.2.1, hP, haddp, hpn]
          rfl
        intro r hr hsid o ho
        rw [hcommitted] at hr
        rcases List.mem_append.mp hr with hin | hin
        · exact absurd hsid (Nat.ne_of_lt (hcs r hin))
        · obtain ⟨_, _, _, hrefs⟩ := hOk r hin
          obtain ⟨r2, hmem, hid, hsid2⟩ := hrefs o ho
          exact ⟨r2, by rw [hcommitted]; exact List.mem_append.mpr (Or.inr hmem),
            hid, hsid2⟩

theorem c4_no_dangling_refs_witness :
    ∃ r2, r2 ∈ (generateStory llmGood DB.empty "s1" "fantasy").db.committedNodes ∧
      r2.id = 2 ∧ r2.story_id = 0 :=
  c4_no_dangling_refs llmGood DB.empty "s1" "fantasy" ⟨0, "T", "s1"⟩ rfl rfl
    (fun r hr => absurd hr (List.not_mem_nil r)) rfl
    ⟨1, 0, "Start", true, false, false, [⟨"Go left", 2⟩, ⟨"Go right", 3⟩]⟩
    (by decide) rfl ⟨"Go left", 2⟩ (by decide)

/-! ## Claim C9 -/

/-- Claim C9 as stated is false: materialization does not reject a
shape-violating document before any storage write.  For the concrete
document whose raw root mapping is well-formed but whose first embedded
raw child is an ending node carrying a non-empty options list (and with
the repair answer unparseable), `generate_story` does reject the
document — via the failed node validation and single failed repair —
but only after the story row and the parent node row have already been
flushed to the session: at the moment of rejection the session holds one
pending story row and one pending node row (nothing committed). -/
theorem c9_writes_before_rejection_counterexample :
    (generateStory llmShapeViolating DB.empty "s9" "fantasy").res =
      Except.error (GenError.nodeRepairFailed "still invalid") ∧
    (generateStory llmShapeViolating DB.empty "s9" "fantasy").db.pendingStories =
      [⟨0, "T9", "s9"⟩] ∧
    (generateStory llmShapeViolating DB.empty "s9" "fantasy").db.pendingNodes =
      [⟨1, 0, "Start", true, false, false, []⟩] ∧
    (generateStory llmShapeViolating DB.empty "s9" "fantasy").db.committedNodes =
      [] ∧
    (generateStory llmShapeViolating DB.empty "s9" "fantasy").db.committedStories =
      [] ∧
    (generateStory llmShapeViolating DB.empty "s9" "fantasy").db.commits = 0 :=
  ⟨rfl, rfl, rfl, rfl, rfl, rfl⟩

/-- Claim C9 amended: a raw-mapping child violating the node shape
contract (here: whatever makes `validateNode` fail, including an ending
node with options or a wrong option count) is rejected through the node
validation/repair path — when the single repair attempt fails, the
materialize call aborts with the node-repair error — but the rejection
happens only after the parent node row's insert has been flushed; it is
not performed before the storage writes.  Committed rows and the commit
counter are still untouched, so nothing is persisted. -/
theorem c9_rejection_after_parent_writes (fuel : Nat) (llm : Nat → LLMResult)
    (k : Nat) (db : DB) (storyId : Nat) (t ve : String) (d : RawDict)
    (rest : List StoryOptionLLM) (nd : StoryNodeLLM) (isRoot : Bool)
    (rt : RawText) (e2 : String)
    (hv : validateNode d = Except.error ve)
    (hne : nd.isEnding = false)
    (hopts : nd.options = StoryOptionLLM.mk t (NodeData.dict d) :: rest)
    (hllm : llm k = LLMResult.text rt)
    (hparse : nodeParse rt = Except.error e2) :
    (processStoryNode (fuel + 2) llm k db storyId nd isRoot).res =
      Except.error (GenError.nodeRepairFailed e2) ∧
    (processStoryNode (fuel + 2) llm k db storyId nd isRoot).db.pendingNodes =
      db.pendingNodes ++
        [⟨db.nextId, storyId, nd.content, isRoot, false, nd.isWinningEnding, []⟩] ∧
    framePreserved db (processStoryNode (fuel + 2) llm k db storyId nd isRoot).db := by
  have hr : resolveChild llm k (NodeData.dict d) =
      (Except.error (GenError.nodeRepairFailed e2), k + 1, [nodeRepairMessages d]) := by
    simp [resolveChild, hv, hllm, hparse]
  have hpo : ∀ db' : DB, processOptions (fuel + 1) llm k db' storyId
      (StoryOptionLLM.mk t (NodeData.dict d) :: rest) =
      ⟨Except.error (GenError.nodeRepairFailed e2), db', k + 1,
       [nodeRepairMessages d]⟩ := by
    intro db'
    simp [processOptions, StoryOptionLLM.nextNode, hr]
  have h22 : fuel + 2 = (fuel + 1) + 1 := rfl
  rw [h22]
  refine ⟨?_, ?_, ?_⟩ <;>
    simp [processStoryNode, hne, hopts, hpo, DB.addNode, framePreserved]

theorem c9_rejection_after_parent_writes_witness :
    (processStoryNode 2 llmStillBad 0 DB.empty 7 nodeWithBadChild true).res =
      Except.error (GenError.nodeRepairFailed "still invalid") ∧
    (processStoryNode 2 llmStillBad 0 DB.empty 7 nodeWithBadChild true).db.pendingNodes =
      DB.empty.pendingNodes ++ [⟨0, 7, "Start", true, false, false, []⟩] ∧
    framePreserved DB.empty
      (processStoryNode 2 llmStillBad 0 DB.empty 7 nodeWithBadChild true).db :=
  c9_rejection_after_parent_writes 0 llmStillBad 0 DB.empty 7 "left"
    "options must be empty on an ending node" endBadDict
    [StoryOptionLLM.mk "right" (NodeData.typed endWin)] nodeWithBadChild true
    (RawText.junk "still invalid") "still invalid" rfl rfl rfl rfl rfl
